import Mathlib

/-!
Verification of the inventory demand-forecasting pipeline

Shallow embedding of the repository's `ml_model` package (Python) in Lean 4:

* `src/ml_model/prediction.py`                : `load_model`, `predict_next_day_demand`
* `src/ml_model/prediction_prophet_only.py`   : `load_prophet_model`, `predict_next_day_demand_prophet`
* `src/ml_model/api_integration.py`           : `get_predicted_demand`, `get_available_models` (filename parsing)
* `src/ml_model/model_training.py`            : `train_prophet_model`, `train_arima_model`
* `src/ml_model/model_training_prophet_only.py` : `train_prophet_model` (prophet-only variant)
* `src/ml_model/model_evaluation.py`          : `evaluate_model_performance`
* `src/ml_model/feature_engineering.py`       : `preprocess_data`

Modelling conventions:

* The filesystem (`os.path.exists` + `joblib.load`) is an explicit environment
  `FsEnv`; `joblib.load` may raise, modelled as `Except String PyModel`.
* A loaded (opaque, dynamically typed) model object is `PyModel`, a pair of
  callable surfaces: the Prophet-style `predict` over a list of future
  timestamps and the pmdarima-style `predict(n_periods)`.  Either call may
  raise (`Except`).  Calendar dates are day numbers (`ℤ`); floats are `ℚ`.
* Functions that probe the Registry additionally return the list of model-file
  paths they probed, so "no Registry access was attempted" is expressible.
* `print` log lines are dropped, except the three distinct log outcomes of
  `load_model`, kept as `LoadLog` (they are the only caller-invisible signal
  distinguishing a missing file from a corrupted one).
-/

/-- Python `round` (banker's rounding, round-half-to-even) on a rational. -/
def pyRound (x : ℚ) : ℤ :=
  let n := Rat.floor x
  let r := x - n
  if r < 1/2 then n
  else if 1/2 < r then n + 1
  else if n % 2 = 0 then n else n + 1

/-- Embeds `os.path.join(MODEL_SAVE_DIR, f'{model_type}_model_{pincode}_{item}.joblib')`
(`prediction.py` line 25; the same naming scheme is used by the save sites in
`model_training.py` lines 70 and 136). -/
def modelPath (model_type pincode item : String) : String :=
  "trained_models/" ++ model_type ++ "_model_" ++ pincode ++ "_" ++ item ++ ".joblib"

/-- The opaque object returned by `joblib.load`: it can be used through the
Prophet predict surface (one forecast row per requested timestamp) or through
the pmdarima predict surface (`n_periods` values); either call may raise. -/
structure PyModel where
  prophetPredict : List ℤ → Except String (List ℚ)
  arimaPredict : Nat → Except String (List ℚ)

/-- The filesystem as seen through `os.path.exists` and `joblib.load`. -/
structure FsEnv where
  pathExists : String → Bool
  loadFile : String → Except String PyModel

/-- The three distinct `print` outcomes of `load_model`
(`prediction.py` lines 29, 33, 36). -/
inductive LoadLog where
  | notFoundMsg
  | loadedMsg
  | loadErrorMsg (e : String)
deriving DecidableEq, Repr

/-- Embeds `prediction.py::load_model`.  The first component is the Python return
value (the loaded model, or `None` both when the file is missing and when
`joblib.load` raises); the second is the log line printed. -/
def load_model (env : FsEnv) (pincode item model_type : String) :
    Option PyModel × LoadLog :=
  let model_filename := modelPath model_type pincode item
  if env.pathExists model_filename then
    match env.loadFile model_filename with
    | .ok m => (some m, .loadedMsg)
    | .error e => (none, .loadErrorMsg e)
  else
    (none, .notFoundMsg)

/-- The dict returned by `predict_next_day_demand` (and its prophet-only
variant). -/
structure PredResult where
  pincode : String
  item : String
  predicted_demand : ℤ
  restock_quantity : ℤ
  status : String
deriving DecidableEq, Repr

/-- Status f-string of `prediction.py` line 68. -/
def notFoundStatus (pincode item model_type : String) : String :=
  "Model not found or loaded for " ++ pincode ++ ", " ++ item ++ " (" ++ model_type ++ ")."

/-- Status f-string of `prediction.py` line 105 (also `model_evaluation.py` line 51). -/
def unsupportedStatus (model_type : String) : String :=
  "Unsupported model type: " ++ model_type ++ ". Must be 'prophet' or 'arima'."

/-- Status f-string of `prediction.py` line 115. -/
def predictionFailedStatus (e : String) : String :=
  "Prediction failed: " ++ e

/-- Embeds `prediction.py::predict_next_day_demand`.

`today` stands for `date.today()` (the caller's clock); the function forecasts
`today + 1`.  The second component of the result is the list of Registry paths
probed (here: always exactly the one file `load_model` checks).  The
`forecast['yhat'].iloc[0]` / `forecast_values[0]` subscripts raise `IndexError`
on an empty forecast, which the surrounding `try` catches, hence the
`.error`-on-empty branches. -/
def predict_next_day_demand (env : FsEnv) (pincode item : String)
    (model_type : String) (today : ℤ) : PredResult × List String :=
  let model_filename := modelPath model_type pincode item
  match (load_model env pincode item model_type).1 with
  | none =>
      (⟨pincode, item, 0, 0, notFoundStatus pincode item model_type⟩, [model_filename])
  | some model =>
      let tomorrow := today + 1
      if model_type = "prophet" ∨ model_type = "arima" then
        let outcome : Except String ℚ :=
          if model_type = "prophet" then
            match model.prophetPredict [tomorrow] with
            | .error e => .error e
            | .ok yhat =>
                match yhat.head? with
                | some y => .ok y
                | none => .error "single positional indexer is out-of-bounds"
          else
            match model.arimaPredict 1 with
            | .error e => .error e
            | .ok vals =>
                match vals.head? with
                | some y => .ok y
                | none => .error "index 0 is out of bounds for axis 0 with size 0"
        match outcome with
        | .error e =>
            (⟨pincode, item, 0, 0, predictionFailedStatus e⟩, [model_filename])
        | .ok y =>
            let predicted_demand := max 0 (pyRound y)
            let restock_quantity := max 0 (predicted_demand + 5)
            (⟨pincode, item, predicted_demand, restock_quantity, "Success"⟩, [model_filename])
      else
        (⟨pincode, item, 0, 0, unsupportedStatus model_type⟩, [model_filename])

/-- Embeds `prediction_prophet_only.py::load_prophet_model`: identical control flow to
`load_model` with the model kind fixed to `'prophet'` (only the printed
messages differ in wording). -/
def load_prophet_model (env : FsEnv) (pincode item : String) :
    Option PyModel × LoadLog :=
  let model_filename := modelPath "prophet" pincode item
  if env.pathExists model_filename then
    match env.loadFile model_filename with
    | .ok m => (some m, .loadedMsg)
    | .error e => (none, .loadErrorMsg e)
  else
    (none, .notFoundMsg)

/-- Embeds `prediction_prophet_only.py::predict_next_day_demand_prophet`.  Unlike the
combined `predict_next_day_demand`, this variant validates the keys first
(`if not pincode or not item`, line 61) before touching the Registry. -/
def predict_next_day_demand_prophet (env : FsEnv) (pincode item : String)
    (today : ℤ) : PredResult × List String :=
  if pincode = "" ∨ item = "" then
    (⟨pincode, item, 0, 0, "Invalid input: pincode and item are required."⟩, [])
  else
    let model_filename := modelPath "prophet" pincode item
    match (load_prophet_model env pincode item).1 with
    | none =>
        (⟨pincode, item, 0, 0,
          "Prophet model not found or loaded for " ++ pincode ++ ", " ++ item ++ "."⟩,
         [model_filename])
    | some model =>
        let tomorrow := today + 1
        match model.prophetPredict [tomorrow] with
        | .error e =>
            (⟨pincode, item, 0, 0, "Prophet prediction failed: " ++ e⟩, [model_filename])
        | .ok yhat =>
            match yhat.head? with
            | none =>
                (⟨pincode, item, 0, 0,
                  "Prophet prediction failed: single positional indexer is out-of-bounds"⟩,
                 [model_filename])
            | some y =>
                let predicted_demand := max 0 (pyRound y)
                let restock_quantity := max 0 (predicted_demand + 5)
                (⟨pincode, item, predicted_demand, restock_quantity, "Success"⟩,
                 [model_filename])

/-- The `detail` payload of an `HTTPException` raised by the API layer: a plain
string for the 400s/500s, the structured dict of `api_integration.py` lines
121-127 for the 404. -/
inductive ApiDetail where
  | text (s : String)
  | predDetail (pincode item model_type status message : String)
deriving DecidableEq, Repr

/-- Outcome of the `/predict_demand` endpoint: a `PredictionResponse` or an
`HTTPException` (status code + detail). -/
inductive ApiResponse where
  | ok (pincode item : String) (predicted_demand restock_quantity : ℤ)
      (status message : String)
  | httpError (code : ℕ) (detail : ApiDetail)
deriving DecidableEq, Repr

/-- Embeds `api_integration.py::get_predicted_demand` (the `/predict_demand`
endpoint).  Python truthiness `not request.pincode` is emptiness of the
string.  The second component again records the Registry paths probed. -/
def get_predicted_demand (env : FsEnv) (today : ℤ)
    (pincode item model_type : String) : ApiResponse × List String :=
  if pincode = "" ∨ item = "" then
    (.httpError 400 (.text "Invalid request: pincode and item are required."), [])
  else if ¬ (model_type = "prophet" ∨ model_type = "arima") then
    (.httpError 400 (.text "Invalid model_type. Must be 'prophet' or 'arima'."), [])
  else
    let pr := predict_next_day_demand env pincode item model_type today
    if pr.1.status ≠ "Success" then
      (.httpError 404
        (.predDetail pr.1.pincode pr.1.item model_type pr.1.status pr.1.status), pr.2)
    else
      (.ok pr.1.pincode pr.1.item pr.1.predicted_demand pr.1.restock_quantity
        pr.1.status "Demand prediction successful.", pr.2)

/-! ## Preprocessed data rows and the Evaluation Engine -/

/-- One row of a preprocessed DataFrame as consumed by training and
evaluation: columns `ds`, `y`, `pincode`, `item`.  The additional calendar
feature columns produced by `preprocess_data` (`day_of_week`, `day_of_year`,
`month`, `quarter`, `is_weekend`) are pure per-row functions of `ds` that no
downstream consumer in the repository reads (training feeds only `ds`/`y`,
evaluation only `ds`/`y`/keys), so they are not modelled. -/
structure PRow where
  ds : ℤ
  y : ℚ
  pincode : String
  item : String
deriving DecidableEq, Repr

/-- Embeds `DataFrame.sort_values('ds')` on a list of preprocessed rows.  (pandas'
default sort is not stable; the relative order of rows with equal `ds` is
unspecified there and immaterial to every claim, so a fixed sort is used.) -/
def sortByDs (l : List PRow) : List PRow :=
  List.insertionSort (fun a b => a.ds ≤ b.ds) l

/-- A MAPE value: a finite float or `float('inf')`. -/
inductive MapeVal where
  | fin (q : ℚ)
  | infin
deriving DecidableEq, Repr

/-- The dict returned by `evaluate_model_performance`: either a status-only
dict (any of the early-return failure paths) or the metrics dict.

The source reports `RMSE = round(sqrt(mse), 2)` and rounds `MAE`/`MAPE` to two
decimals; the square root (irrational) and the display rounding are not
representable in `ℚ` and do not affect finiteness, so the embedding records
the unrounded MAE, the unrounded mean squared error (of which the reported
RMSE is the square root), and the unrounded MAPE. -/
inductive EvalResult where
  | failure (status : String)
  | metrics (mae mse : ℚ) (mape : MapeVal) (status : String)
deriving DecidableEq, Repr

/-- Embeds `model_evaluation.py::evaluate_model_performance`.

`evaluation_data = none` models the Python default `evaluation_data=None`.
The required-columns check (lines 64-67) cannot fail in the typed embedding
(every `PRow` has all four columns) and is omitted.  The metric computation
(lines 118-133) raises no exception on rational arithmetic, so the final
`except` (lines 137-139) is unreachable and omitted. -/
def evaluate_model_performance (env : FsEnv) (pincode item model_type : String)
    (evaluation_data : Option (List PRow)) : EvalResult :=
  if pincode = "" ∨ item = "" then
    .failure "Invalid input: pincode and item are required."
  else if ¬ (model_type = "prophet" ∨ model_type = "arima") then
    .failure (unsupportedStatus model_type)
  else
    match (load_model env pincode item model_type).1 with
    | none =>
        .failure ("Model not found or loaded for " ++ pincode ++ ", " ++ item ++
          " (" ++ model_type ++ "), skipping evaluation.")
    | some model =>
        match evaluation_data with
        | none => .failure "No historical evaluation data provided."
        | some rows =>
            if rows = [] then .failure "No historical evaluation data provided."
            else
              let eval_series_data :=
                sortByDs (rows.filter fun r => r.pincode = pincode ∧ r.item = item)
              if eval_series_data = [] then
                .failure "No specific evaluation data for this combination."
              else
                let actual_values := eval_series_data.map (·.y)
                let predictionsE : Except String (List ℚ) :=
                  if model_type = "prophet" then
                    model.prophetPredict (eval_series_data.map (·.ds))
                  else
                    match model.arimaPredict actual_values.length with
                    | .ok ps => .ok ps
                    | .error _ => .ok (actual_values.map fun _ => 0)
                match predictionsE with
                | .error e => .failure ("Prediction for evaluation failed: " ++ e)
                | .ok predictions =>
                    let min_len := min actual_values.length predictions.length
                    if min_len = 0 then
                      .failure "No data for comparison after alignment."
                    else
                      let a := actual_values.take min_len
                      let p := predictions.take min_len
                      let mae := (List.zipWith (fun x y => |x - y|) a p).sum / (min_len : ℚ)
                      let mse := (List.zipWith (fun x y => (x - y)^2) a p).sum / (min_len : ℚ)
                      let mape0 :=
                        ((List.zipWith (fun x y => |(x - y) / (x + 1/100000000)|) a p).sum
                          / (min_len : ℚ)) * 100
                      let mape := if a.all (· = 0) then MapeVal.infin else MapeVal.fin mape0
                      .metrics mae mse mape "Evaluation complete"

/-! ## Training -/

/-- Embeds `model_training.py::train_prophet_model`.

`fit` is the external `Prophet(...).fit` call (it may raise, e.g. on fewer
than 2 rows); its argument is the `prophet_df` projection `[['ds', 'y']]` of
the filtered rows.  On success the model is also saved under
`modelPath "prophet" pincode item` (`joblib.dump`, lines 70-71); the return
value alone decides the claims, so the save effect is not tracked.  Note the
only guard before fitting is the emptiness check of line 38: there is no
minimum-points check in this function. -/
def train_prophet_model {P : Type} (fit : List (ℤ × ℚ) → Except String P)
    (data : List PRow) (pincode item : String) : Option P :=
  let filtered_data := data.filter fun r => r.pincode = pincode ∧ r.item = item
  if filtered_data = [] then none
  else
    match fit (filtered_data.map fun r => (r.ds, r.y)) with
    | .ok m => some m
    | .error _ => none

/-- Embeds `model_training.py::train_arima_model`.  `autoArima` is the external
`pm.auto_arima` call on the date-sorted value series; the `len(series) < 10`
guard of line 107 precedes it. -/
def train_arima_model {A : Type} (autoArima : List ℚ → Except String A)
    (data : List PRow) (pincode item : String) : Option A :=
  let filtered_data := data.filter fun r => r.pincode = pincode ∧ r.item = item
  if filtered_data = [] then none
  else
    let series := (sortByDs filtered_data).map (·.y)
    if series.length < 10 then none
    else
      match autoArima series with
      | .ok m => some m
      | .error _ => none

/-- Embeds `model_training_prophet_only.py::train_prophet_model` (the prophet-only
variant).  Unlike the combined module's function it checks
`len(prophet_df) < 10` (line 70) before fitting.  The required-columns check
(lines 60-64) cannot fail on typed rows and is omitted. -/
def train_prophet_model_po {P : Type} (fit : List (ℤ × ℚ) → Except String P)
    (data : List PRow) (pincode item : String) : Option P :=
  let filtered_data := data.filter fun r => r.pincode = pincode ∧ r.item = item
  if filtered_data = [] then none
  else
    let prophet_df := filtered_data.map fun r => (r.ds, r.y)
    if prophet_df.length < 10 then none
    else
      match fit prophet_df with
      | .ok m => some m
      | .error _ => none

/-! ## Series Preprocessor -/

/-- One raw sales record (`data_ingestion` output): columns `date`, `pincode`,
`item`, `sales_quantity`.  Dates are calendar day numbers (the source parses
them with `pd.to_datetime` at daily granularity). -/
structure RawRecord where
  date : ℤ
  pincode : String
  item : String
  sales_quantity : ℚ
deriving DecidableEq, Repr

/-- Embeds `df[['pincode', 'item']].drop_duplicates()`: the distinct keys in first-
occurrence order. -/
def dropDuplicatesAux (seen : List (String × String)) :
    List (String × String) → List (String × String)
  | [] => []
  | x :: xs =>
      if x ∈ seen then dropDuplicatesAux seen xs
      else x :: dropDuplicatesAux (x :: seen) xs

/-- The distinct `(pincode, item)` combinations of a raw DataFrame, in first-
occurrence order. -/
def uniqueCombinations (df : List RawRecord) : List (String × String) :=
  dropDuplicatesAux [] (df.map fun r => (r.pincode, r.item))

/-- Embeds `df[(df['pincode'] == pincode) & (df['item'] == item)]`. -/
def groupFor (df : List RawRecord) (pincode item : String) : List RawRecord :=
  df.filter fun r => r.pincode = pincode ∧ r.item = item

/-- Minimum of the dates of a (nonempty) record group; 0 on the empty group. -/
def minDate : List RawRecord → ℤ
  | [] => 0
  | r :: rs => rs.foldl (fun acc x => min acc x.date) r.date

/-- Maximum of the dates of a (nonempty) record group; 0 on the empty group. -/
def maxDate : List RawRecord → ℤ
  | [] => 0
  | r :: rs => rs.foldl (fun acc x => max acc x.date) r.date

/-- The daily calendar index `lo, lo+1, ..., hi` built by `resample('D')`. -/
def seqDays (lo hi : ℤ) : List ℤ :=
  (List.range (hi + 1 - lo).toNat).map fun k => lo + (k : ℤ)

/-- The day-`d` bucket of `resample('D').sum()`: the sum of `sales_quantity`
over the group's records dated `d` (0 when no record falls on `d`). -/
def daySum (grp : List RawRecord) (d : ℤ) : ℚ :=
  ((grp.filter fun r => r.date = d).map (·.sales_quantity)).sum

/-- Embeds `group_df.set_index('date')['sales_quantity'].resample('D').sum()` followed
by the renames and the re-attachment of `pincode`/`item`
(`feature_engineering.py` lines 58-65). -/
def buildDailySeries (grp : List RawRecord) (pincode item : String) : List PRow :=
  (seqDays (minDate grp) (maxDate grp)).map fun d => ⟨d, daySum grp d, pincode, item⟩

/-- Embeds `feature_engineering.py::preprocess_data` restricted to the `ds`, `y`,
`pincode`, `item` columns (see `PRow` for why the derived calendar feature
columns are not modelled).  The trailing `if not processed_data_list` guard
(line 81) can only fire on an empty input, which the first guard already
handles; concatenation of the per-key series is `flatten`. -/
def preprocess_data (df : List RawRecord) : List PRow :=
  if df = [] then []
  else
    ((uniqueCombinations df).map fun pc =>
      let group_df := groupFor df pc.1 pc.2
      if group_df = [] then [] else buildDailySeries group_df pc.1 pc.2).flatten

/-! ## Registry filename scheme and the model-listing scan

The listing endpoint works on basenames; Python strings are modelled as
`List Char` here because the claim requires reasoning about `split`/`join`/
`replace`. -/

/-- The characters of the extension string `'.joblib'`. -/
def jlbC : List Char := ['.', 'j', 'o', 'b', 'l', 'i', 'b']

/-- Fuel-indexed worker for `stripJoblib` (structural recursion on the fuel,
so that the function reduces definitionally; the fuel is at least the length
of the list, which every step shrinks). -/
def stripJoblibF : Nat → List Char → List Char
  | 0, _ => []
  | _, [] => []
  | fuel + 1, c :: rest =>
      if jlbC <+: (c :: rest) then stripJoblibF fuel (rest.drop 6)
      else c :: stripJoblibF fuel rest

/-- Embeds `filename.replace('.joblib', '')` (Python `str.replace`: every
non-overlapping occurrence, scanning left to right, is removed). -/
def stripJoblib (l : List Char) : List Char :=
  stripJoblibF l.length l

/-- Embeds `s.split('_')` (Python `str.split` with a one-character separator). -/
def splitUnderscore : List Char → List (List Char)
  | [] => [[]]
  | c :: rest =>
      if c = '_' then [] :: splitUnderscore rest
      else
        match splitUnderscore rest with
        | [] => [[c]]
        | h :: t => (c :: h) :: t

/-- Embeds `'_'.join(parts)`. -/
def joinUnderscore : List (List Char) → List Char
  | [] => []
  | [p] => p
  | p :: ps => p ++ '_' :: joinUnderscore ps

/-- The basename `f'{model_type}_model_{pincode}_{item}.joblib'` under which
`model_training.py` saves a model (lines 70 and 136) and from which
`load_model` reads one (`prediction.py` line 25). -/
def modelBasename (model_type pincode item : List Char) : List Char :=
  model_type ++ '_' :: 'm' :: 'o' :: 'd' :: 'e' :: 'l' :: '_' :: (pincode ++ '_' :: (item ++ jlbC))

/-- The per-file parsing step of `api_integration.py::get_available_models`
(lines 171-175): strip `'.joblib'`, split on `'_'`, and when at least four
parts remain take `parts[0]` as the model type, `parts[2]` as the pincode and
`'_'.join(parts[3:])` as the item; otherwise the file is skipped. -/
def parseModelFilename (filename : List Char) :
    Option (List Char × List Char × List Char) :=
  let parts := splitUnderscore (stripJoblib filename)
  if 4 ≤ parts.length then
    some (parts.getD 0 [], parts.getD 2 [], joinUnderscore (parts.drop 3))
  else none

/-! ## Concrete data, environments and result projections used by the theorems below -/

/-- A well-behaved loaded model: the Prophet surface forecasts 42 for every
requested day, the pmdarima surface forecasts 35 for every period. -/
def sampleModel : PyModel where
  prophetPredict := fun ds => .ok (ds.map fun _ => (42 : ℚ))
  arimaPredict := fun n => .ok (List.replicate n (35 : ℚ))

/-- A loaded model whose predict calls raise. -/
def failingModel : PyModel where
  prophetPredict := fun _ => .error "ValueError: boom"
  arimaPredict := fun _ => .error "ValueError: boom"

/-- A filesystem with exactly one stored model file. -/
def envWith (path : String) (m : PyModel) : FsEnv where
  pathExists := fun s => s == path
  loadFile := fun s => if s == path then .ok m else .error "FileNotFoundError"

/-- An empty filesystem (no trained models). -/
def emptyEnv : FsEnv where
  pathExists := fun _ => false
  loadFile := fun _ => .error "FileNotFoundError"

/-- A filesystem where one model file exists but fails to deserialize. -/
def corruptEnv (path : String) : FsEnv where
  pathExists := fun s => s == path
  loadFile := fun _ => .error "UnpicklingError: invalid load key"

/-- The `status` entry of an evaluation result dict. -/
def evalStatus : EvalResult → String
  | .failure s => s
  | .metrics _ _ _ s => s

/-- Whether an evaluation result carries the metric entries. -/
def isMetrics : EvalResult → Bool
  | .failure _ => false
  | .metrics _ _ _ _ => true

/-- The MAPE entry of an evaluation result dict, when present. -/
def evalMape : EvalResult → Option MapeVal
  | .failure _ => none
  | .metrics _ _ mp _ => some mp

/-- A concrete 5-point preprocessed series for `("110037", "Milk")`. -/
def fiveRows : List PRow :=
  [⟨1, 3, "110037", "Milk"⟩, ⟨2, 4, "110037", "Milk"⟩, ⟨3, 5, "110037", "Milk"⟩,
   ⟨4, 2, "110037", "Milk"⟩, ⟨5, 1, "110037", "Milk"⟩]

/-- A concrete raw record set: two keys, a duplicated day (10) for the Milk
key, and a calendar gap (day 11 has no Milk record). -/
def sampleRaw : List RawRecord :=
  [⟨10, "110037", "Milk", 3⟩, ⟨12, "110037", "Milk", 4⟩,
   ⟨10, "110037", "Milk", 2⟩, ⟨11, "400092", "Bread", 7⟩]

/-! ## Helper lemmas: failure statuses are never `"Success"` -/

lemma append_ne_success (a b : String) (ha : 8 ≤ a.length) : a ++ b ≠ "Success" := by
  intro h
  have hl := congrArg String.length h
  rw [String.length_append] at hl
  have h7 : ("Success").length = 7 := rfl
  omega

lemma notFoundStatus_ne_success (p i mt : String) :
    notFoundStatus p i mt ≠ "Success" := by
  intro h
  have hl := congrArg String.length h
  simp only [notFoundStatus, String.length_append] at hl
  have h30 : ("Model not found or loaded for ").length = 30 := rfl
  have h7 : ("Success").length = 7 := rfl
  omega

lemma unsupportedStatus_ne_success (mt : String) :
    unsupportedStatus mt ≠ "Success" := by
  intro h
  have hl := congrArg String.length h
  simp only [unsupportedStatus, String.length_append] at hl
  have h24 : ("Unsupported model type: ").length = 24 := rfl
  have h7 : ("Success").length = 7 := rfl
  omega

lemma predictionFailedStatus_ne_success (e : String) :
    predictionFailedStatus e ≠ "Success" := by
  intro h
  have hl := congrArg String.length h
  simp only [predictionFailedStatus, String.length_append] at hl
  have h19 : ("Prediction failed: ").length = 19 := rfl
  have h7 : ("Success").length = 7 := rfl
  omega

lemma prophetNotFound_ne_success (p i : String) :
    "Prophet model not found or loaded for " ++ p ++ ", " ++ i ++ "." ≠ "Success" := by
  intro h
  have hl := congrArg String.length h
  simp only [String.length_append] at hl
  have h38 : ("Prophet model not found or loaded for ").length = 38 := rfl
  have h7 : ("Success").length = 7 := rfl
  omega

lemma prophetPredFailed_ne_success (e : String) :
    "Prophet prediction failed: " ++ e ≠ "Success" := by
  intro h
  have hl := congrArg String.length h
  simp only [String.length_append] at hl
  have h27 : ("Prophet prediction failed: ").length = 27 := rfl
  have h7 : ("Success").length = 7 := rfl
  omega

/-! ## Characterization of the prediction functions -/

/-- Every result of `predict_next_day_demand` is either a Success result with
a non-negative demand and `restock = demand + 5`, or a failure result with
both quantities zero. -/
lemma predict_characterization (env : FsEnv) (p i mt : String) (t : ℤ) :
    ((predict_next_day_demand env p i mt t).1.status = "Success" ∧
      0 ≤ (predict_next_day_demand env p i mt t).1.predicted_demand ∧
      (predict_next_day_demand env p i mt t).1.restock_quantity =
        (predict_next_day_demand env p i mt t).1.predicted_demand + 5)
    ∨ ((predict_next_day_demand env p i mt t).1.predicted_demand = 0 ∧
        (predict_next_day_demand env p i mt t).1.restock_quantity = 0 ∧
        (predict_next_day_demand env p i mt t).1.status ≠ "Success") := by
  unfold predict_next_day_demand
  cases hm : (load_model env p i mt).1 with
  | none =>
      right
      exact ⟨rfl, rfl, notFoundStatus_ne_success p i mt⟩
  | some model =>
      simp only
      split
      · split
        · right
          exact ⟨rfl, rfl, predictionFailedStatus_ne_success _⟩
        · rename_i y heq
          left
          refine ⟨rfl, le_max_left 0 _, ?_⟩
          have h5 : (0 : ℤ) ≤ max 0 (pyRound y) + 5 := by positivity
          simpa using max_eq_right h5
      · right
        exact ⟨rfl, rfl, unsupportedStatus_ne_success mt⟩

/-- Same characterization for the prophet-only variant. -/
lemma predict_prophet_characterization (env : FsEnv) (p i : String) (t : ℤ) :
    ((predict_next_day_demand_prophet env p i t).1.status = "Success" ∧
      0 ≤ (predict_next_day_demand_prophet env p i t).1.predicted_demand ∧
      (predict_next_day_demand_prophet env p i t).1.restock_quantity =
        (predict_next_day_demand_prophet env p i t).1.predicted_demand + 5)
    ∨ ((predict_next_day_demand_prophet env p i t).1.predicted_demand = 0 ∧
        (predict_next_day_demand_prophet env p i t).1.restock_quantity = 0 ∧
        (predict_next_day_demand_prophet env p i t).1.status ≠ "Success") := by
  unfold predict_next_day_demand_prophet
  split
  · right
    refine ⟨rfl, rfl, ?_⟩
    exact fun h =>
      (by decide : ("Invalid input: pincode and item are required." : String) ≠ "Success") h
  · cases hm : (load_prophet_model env p i).1 with
    | none =>
        right
        exact ⟨rfl, rfl, prophetNotFound_ne_success p i⟩
    | some model =>
        simp only
        split
        · right
          exact ⟨rfl, rfl, prophetPredFailed_ne_success _⟩
        · split
          · right
            refine ⟨rfl, rfl, ?_⟩
            exact fun h =>
              (by decide :
                ("Prophet prediction failed: single positional indexer is out-of-bounds" :
                  String) ≠ "Success") h
          · rename_i y heq
            left
            refine ⟨rfl, le_max_left 0 _, ?_⟩
            have h5 : (0 : ℤ) ≤ max 0 (pyRound y) + 5 := by positivity
            simpa using max_eq_right h5

/-! ## C4 -/

/-- C4: For every Prediction Service result with status `Success`,
`restock_quantity = predicted_demand + 5`, for all valid
`(location_key, item_key)` — both for the combined prediction function and for
the prophet-only variant. -/
theorem C4_success_restock_eq_demand_plus_buffer :
    (∀ env p i mt t,
      (predict_next_day_demand env p i mt t).1.status = "Success" →
        (predict_next_day_demand env p i mt t).1.restock_quantity =
          (predict_next_day_demand env p i mt t).1.predicted_demand + 5) ∧
    (∀ env p i t,
      (predict_next_day_demand_prophet env p i t).1.status = "Success" →
        (predict_next_day_demand_prophet env p i t).1.restock_quantity =
          (predict_next_day_demand_prophet env p i t).1.predicted_demand + 5) := by
  constructor
  · intro env p i mt t h
    rcases predict_characterization env p i mt t with ⟨_, _, h3⟩ | ⟨_, _, hne⟩
    · exact h3
    · exact absurd h hne
  · intro env p i t h
    rcases predict_prophet_characterization env p i t with ⟨_, _, h3⟩ | ⟨_, _, hne⟩
    · exact h3
    · exact absurd h hne

/-- Witness for C4 at a concrete input: a stored prophet model for
`("110037", "Milk")` produces a `Success` result, and the buffer equation holds
there. -/
theorem C4_witness :
    (predict_next_day_demand (envWith (modelPath "prophet" "110037" "Milk") sampleModel)
        "110037" "Milk" "prophet" 20000).1.status = "Success" ∧
    (predict_next_day_demand (envWith (modelPath "prophet" "110037" "Milk") sampleModel)
        "110037" "Milk" "prophet" 20000).1.restock_quantity =
      (predict_next_day_demand (envWith (modelPath "prophet" "110037" "Milk") sampleModel)
        "110037" "Milk" "prophet" 20000).1.predicted_demand + 5 := by
  have hs : (predict_next_day_demand (envWith (modelPath "prophet" "110037" "Milk") sampleModel)
      "110037" "Milk" "prophet" 20000).1.status = "Success" := by
    norm_num [predict_next_day_demand, load_model, modelPath, envWith, sampleModel]
  exact ⟨hs, C4_success_restock_eq_demand_plus_buffer.1 _ "110037" "Milk" "prophet" 20000 hs⟩

/-! ## C5 -/

/-- C5: For every `(location_key, item_key, model_kind)` whose model file does
not exist, `load_model` signals absence by returning `None` (no exception, the
`notFoundMsg` log), and the Prediction Service then returns
`predicted_demand = 0`, `restock_quantity = 0` and the model-not-found status. -/
theorem C5_missing_file_not_found (env : FsEnv) (p i mt : String) (t : ℤ)
    (h : env.pathExists (modelPath mt p i) = false) :
    load_model env p i mt = (none, .notFoundMsg) ∧
    predict_next_day_demand env p i mt t =
      (⟨p, i, 0, 0, notFoundStatus p i mt⟩, [modelPath mt p i]) := by
  have hl : load_model env p i mt = (none, .notFoundMsg) := by
    unfold load_model
    simp [h]
  refine ⟨hl, ?_⟩
  unfold predict_next_day_demand
  rw [hl]

/-- Witness for C5 at the spec's own scenario: `("999999", "NonExistentItem")`
on an empty filesystem. -/
theorem C5_witness :
    emptyEnv.pathExists (modelPath "prophet" "999999" "NonExistentItem") = false ∧
    predict_next_day_demand emptyEnv "999999" "NonExistentItem" "prophet" 20000 =
      (⟨"999999", "NonExistentItem", 0, 0, notFoundStatus "999999" "NonExistentItem" "prophet"⟩,
       [modelPath "prophet" "999999" "NonExistentItem"]) :=
  ⟨rfl,
   (C5_missing_file_not_found emptyEnv "999999" "NonExistentItem" "prophet" 20000 rfl).2⟩

/-! ## C10 -/

/-- The combined prediction function probes the Registry on every call,
whatever the inputs. -/
lemma predict_always_probes (env : FsEnv) (p i mt : String) (t : ℤ) :
    (predict_next_day_demand env p i mt t).2 = [modelPath mt p i] := by
  unfold predict_next_day_demand
  cases (load_model env p i mt).1 with
  | none => rfl
  | some model =>
      simp only
      split
      · split
        · rfl
        · rfl
      · rfl

/-- C10: the model-kind check happens only after the Registry load.  For every
request with a `model_kind` other than `'prophet'`/`'arima'`: the load is
attempted first (with the unsupported kind in the filename); if the file is
missing the result is the model-not-found status with zeroed quantities; the
unsupported-kind status is returned exactly when a file for that kind exists
and loads. -/
theorem C10_kind_checked_after_load (env : FsEnv) (p i mt : String) (t : ℤ)
    (hmt : mt ≠ "prophet" ∧ mt ≠ "arima") :
    (predict_next_day_demand env p i mt t).2 = [modelPath mt p i] ∧
    ((load_model env p i mt).1 = none →
      predict_next_day_demand env p i mt t =
        (⟨p, i, 0, 0, notFoundStatus p i mt⟩, [modelPath mt p i])) ∧
    (∀ m, (load_model env p i mt).1 = some m →
      predict_next_day_demand env p i mt t =
        (⟨p, i, 0, 0, unsupportedStatus mt⟩, [modelPath mt p i])) := by
  refine ⟨predict_always_probes env p i mt t, ?_, ?_⟩
  · intro hnone
    unfold predict_next_day_demand
    rw [hnone]
  · intro m hsome
    unfold predict_next_day_demand
    rw [hsome]
    simp only
    rw [if_neg ?_]
    rintro (h | h)
    · exact hmt.1 h
    · exact hmt.2 h

/-- Witness for C10 at the unsupported kind `"lstm"`: on an empty filesystem
the result is the not-found status; with a stored `"lstm"` file that loads,
the result is the unsupported-kind status. -/
theorem C10_witness :
    (("lstm" : String) ≠ "prophet" ∧ ("lstm" : String) ≠ "arima") ∧
    predict_next_day_demand emptyEnv "110037" "Milk" "lstm" 20000 =
      (⟨"110037", "Milk", 0, 0, notFoundStatus "110037" "Milk" "lstm"⟩,
       [modelPath "lstm" "110037" "Milk"]) ∧
    predict_next_day_demand (envWith (modelPath "lstm" "110037" "Milk") sampleModel)
        "110037" "Milk" "lstm" 20000 =
      (⟨"110037", "Milk", 0, 0, unsupportedStatus "lstm"⟩,
       [modelPath "lstm" "110037" "Milk"]) := by
  have hmt : ("lstm" : String) ≠ "prophet" ∧ ("lstm" : String) ≠ "arima" := by decide
  refine ⟨hmt, ?_, ?_⟩
  · exact (C10_kind_checked_after_load emptyEnv "110037" "Milk" "lstm" 20000 hmt).2.1 rfl
  · refine (C10_kind_checked_after_load _ "110037" "Milk" "lstm" 20000 hmt).2.2 sampleModel ?_
    norm_num [load_model, envWith, modelPath]

/-! ## C2 -/

/-- C2 counterexample: calling the combined Prediction Service
(`prediction.py::predict_next_day_demand`, the function the spec's Predict
contract describes) with empty keys does NOT yield an invalid-input status and
DOES attempt a Registry access: on an empty filesystem the status is the
model-not-found one and the file `trained_models/prophet_model__.joblib` was
probed. -/
theorem C2_counterexample :
    (predict_next_day_demand emptyEnv "" "" "prophet" 20000).1.status =
      notFoundStatus "" "" "prophet" ∧
    notFoundStatus "" "" "prophet" ≠ "Invalid input: pincode and item are required." ∧
    (predict_next_day_demand emptyEnv "" "" "prophet" 20000).2 =
      [modelPath "prophet" "" ""] ∧
    (predict_next_day_demand emptyEnv "" "" "prophet" 20000).2 ≠ [] := by
  refine ⟨rfl, by decide, rfl, by decide⟩

/-- C2 amended: the empty-key validation lives one layer up and in the
prophet-only variant, not in the combined Prediction Service function.  For
empty `location_key`/`item_key`: the API endpoint returns HTTP 400
`"Invalid request: pincode and item are required."` without any Registry
access; the prophet-only variant returns the invalid-input status without any
Registry access; the combined `predict_next_day_demand` instead always probes
the Registry file for the given keys. -/
theorem C2_amended_validation_elsewhere :
    (∀ env t p i mt, (p = "" ∨ i = "") →
      get_predicted_demand env t p i mt =
        (.httpError 400 (.text "Invalid request: pincode and item are required."), [])) ∧
    (∀ env t p i, (p = "" ∨ i = "") →
      predict_next_day_demand_prophet env p i t =
        (⟨p, i, 0, 0, "Invalid input: pincode and item are required."⟩, [])) ∧
    (∀ env t p i mt,
      (predict_next_day_demand env p i mt t).2 = [modelPath mt p i]) := by
  refine ⟨?_, ?_, ?_⟩
  · intro env t p i mt h
    unfold get_predicted_demand
    rw [if_pos h]
  · intro env t p i h
    unfold predict_next_day_demand_prophet
    rw [if_pos h]
  · intro env t p i mt
    exact predict_always_probes env p i mt t

/-- Witness for C2 amended, at the spec's scenario `Predict("", "", ...)`. -/
theorem C2_witness :
    get_predicted_demand emptyEnv 20000 "" "" "prophet" =
      (.httpError 400 (.text "Invalid request: pincode and item are required."), []) ∧
    predict_next_day_demand_prophet emptyEnv "" "" 20000 =
      (⟨"", "", 0, 0, "Invalid input: pincode and item are required."⟩, []) ∧
    (predict_next_day_demand emptyEnv "" "" "prophet" 20000).2 =
      [modelPath "prophet" "" ""] :=
  ⟨C2_amended_validation_elsewhere.1 emptyEnv 20000 "" "" "prophet" (Or.inl rfl),
   C2_amended_validation_elsewhere.2.1 emptyEnv 20000 "" "" (Or.inl rfl),
   C2_amended_validation_elsewhere.2.2 emptyEnv 20000 "" "" "prophet"⟩

/-! ## C8 -/

/-- C8 counterexample: the claim says a deserialization failure on an existing
file is signalled distinctly from a missing file.  In the code both paths
return `None`: at a concrete key, `load_model` on a filesystem without the
file and `load_model` on a filesystem where the file exists but fails to
deserialize return the identical value. -/
theorem C8_counterexample :
    (load_model emptyEnv "110037" "Milk" "prophet").1 = none ∧
    (load_model (corruptEnv (modelPath "prophet" "110037" "Milk"))
        "110037" "Milk" "prophet").1 = none ∧
    (load_model emptyEnv "110037" "Milk" "prophet").1 =
      (load_model (corruptEnv (modelPath "prophet" "110037" "Milk"))
        "110037" "Milk" "prophet").1 := by
  have h2 : (load_model (corruptEnv (modelPath "prophet" "110037" "Milk"))
      "110037" "Milk" "prophet").1 = none := by
    norm_num [load_model, corruptEnv]
  exact ⟨rfl, h2, h2.symm ▸ rfl⟩

/-- C8 amended: for an existing file whose deserialization fails, `load_model`
returns the same caller-visible value (`None`) as for a missing file; the two
cases are distinguished only by the printed log line (`loadErrorMsg` vs
`notFoundMsg`), not by the returned signal. -/
theorem C8_amended_corruption_same_signal_distinct_log (env : FsEnv)
    (p i mt : String) :
    (env.pathExists (modelPath mt p i) = false →
      load_model env p i mt = (none, .notFoundMsg)) ∧
    (∀ e, env.pathExists (modelPath mt p i) = true →
      env.loadFile (modelPath mt p i) = .error e →
      load_model env p i mt = (none, .loadErrorMsg e)) ∧
    (∀ e, (LoadLog.loadErrorMsg e) ≠ LoadLog.notFoundMsg) := by
  refine ⟨?_, ?_, fun e h => by cases h⟩
  · intro h
    unfold load_model
    simp [h]
  · intro e hex herr
    unfold load_model
    simp [hex, herr]

/-- Witness for C8 amended at a concrete key: the corrupt-file filesystem
yields `(none, loadErrorMsg ...)`, the empty one `(none, notFoundMsg)`. -/
theorem C8_witness :
    load_model (corruptEnv (modelPath "prophet" "110037" "Milk")) "110037" "Milk" "prophet" =
      (none, .loadErrorMsg "UnpicklingError: invalid load key") ∧
    load_model emptyEnv "110037" "Milk" "prophet" = (none, .notFoundMsg) := by
  constructor
  · refine (C8_amended_corruption_same_signal_distinct_log
      (corruptEnv (modelPath "prophet" "110037" "Milk")) "110037" "Milk" "prophet").2.1
      "UnpicklingError: invalid load key" ?_ ?_
    · norm_num [corruptEnv]
    · rfl
  · exact (C8_amended_corruption_same_signal_distinct_log
      emptyEnv "110037" "Milk" "prophet").1 rfl

/-! ## C1 -/

/-- C1 counterexample: `model_training.py::train_prophet_model` has no
minimum-points guard — on a 5-point series it defers entirely to the external
library fit (which the real Prophet accepts, its only requirement being at
least 2 rows), and returns a trained model when that fit succeeds.  So the
fit does not fail for every sub-10-point series on the prophet kind. -/
theorem C1_counterexample :
    (fiveRows.filter fun r => r.pincode = "110037" ∧ r.item = "Milk").length = 5 ∧
    train_prophet_model (fun _ => Except.ok ()) fiveRows "110037" "Milk" = some () := by
  constructor
  · decide
  · decide

/-- C1 amended: the fewer-than-10-points guard exists on the arima path
(`train_arima_model`, line 107) and in the prophet-only training variant
(line 70), but not in the combined module's `train_prophet_model`, which
rejects only an empty filtered series and otherwise returns exactly what the
external fit produces. -/
theorem C1_amended_min_points_guard :
    (∀ (A : Type) (autoArima : List ℚ → Except String A) (data : List PRow) (p i : String),
      ((sortByDs (data.filter fun r => r.pincode = p ∧ r.item = i)).map (·.y)).length < 10 →
      train_arima_model autoArima data p i = none) ∧
    (∀ (P : Type) (fit : List (ℤ × ℚ) → Except String P) (data : List PRow) (p i : String),
      (data.filter fun r => r.pincode = p ∧ r.item = i).length < 10 →
      train_prophet_model_po fit data p i = none) ∧
    (∀ (P : Type) (fit : List (ℤ × ℚ) → Except String P) (data : List PRow) (p i : String),
      (data.filter fun r => r.pincode = p ∧ r.item = i) ≠ [] →
      train_prophet_model fit data p i =
        match fit ((data.filter fun r => r.pincode = p ∧ r.item = i).map
            fun r => (r.ds, r.y)) with
        | .ok m => some m
        | .error _ => none) := by
  refine ⟨?_, ?_, ?_⟩
  · intro A autoArima data p i h
    simp only [train_arima_model]
    by_cases hf : (data.filter fun r => r.pincode = p ∧ r.item = i) = []
    · rw [if_pos hf]
    · rw [if_neg hf, if_pos h]
  · intro P fit data p i h
    simp only [train_prophet_model_po]
    by_cases hf : (data.filter fun r => r.pincode = p ∧ r.item = i) = []
    · rw [if_pos hf]
    · rw [if_neg hf, if_pos (by simpa using h)]
  · intro P fit data p i h
    unfold train_prophet_model
    rw [if_neg h]

/-- Witness for C1 amended, on the concrete 5-point series: arima and the
prophet-only variant refuse it, the combined prophet trainer returns the
external fit's output. -/
theorem C1_witness :
    train_arima_model (fun _ => Except.ok ()) fiveRows "110037" "Milk" = none ∧
    train_prophet_model_po (fun _ => Except.ok ()) fiveRows "110037" "Milk" = none ∧
    train_prophet_model (fun _ => Except.ok ()) fiveRows "110037" "Milk" =
      match Except.ok () with
      | .ok m => some m
      | .error (_ : String) => none := by
  refine ⟨?_, ?_, ?_⟩
  · exact C1_amended_min_points_guard.1 Unit (fun _ => Except.ok ()) fiveRows
      "110037" "Milk" (by decide)
  · exact C1_amended_min_points_guard.2.1 Unit (fun _ => Except.ok ()) fiveRows
      "110037" "Milk" (by decide)
  · have := C1_amended_min_points_guard.2.2 Unit (fun _ => Except.ok ()) fiveRows
      "110037" "Milk" (by decide)
    simpa using this

/-! ## C3 -/

/-- C3 counterexample: in the Evaluation Engine an exception raised by the
arima predict call is NOT reported as a prediction-failure status: the inner
`except` substitutes all-zero predictions and the evaluation completes with
metrics and status `"Evaluation complete"`. -/
theorem C3_counterexample :
    evalStatus (evaluate_model_performance
        (envWith (modelPath "arima" "110037" "Milk") failingModel) "110037" "Milk" "arima"
        (some [⟨1, 3, "110037", "Milk"⟩, ⟨2, 4, "110037", "Milk"⟩])) =
      "Evaluation complete" ∧
    isMetrics (evaluate_model_performance
        (envWith (modelPath "arima" "110037" "Milk") failingModel) "110037" "Milk" "arima"
        (some [⟨1, 3, "110037", "Milk"⟩, ⟨2, 4, "110037", "Milk"⟩])) = true ∧
    failingModel.arimaPredict 2 = .error "ValueError: boom" := by
  refine ⟨?_, ?_, rfl⟩ <;>
  · norm_num [evaluate_model_performance, load_model, envWith, failingModel, modelPath,
      sortByDs, List.insertionSort, List.orderedInsert, evalStatus, isMetrics]
    rw [if_neg (by decide), if_neg (List.cons_ne_nil _ _), if_neg (List.cons_ne_nil _ _),
      if_neg (by decide)]
    rfl

/-- C3 amended: an exception in the underlying forecasting call is caught and
converted to a well-formed zeroed `PredictionFailed` result in the Prediction
Service (both kinds), and in the Evaluation Engine for the prophet kind; for
the arima kind inside evaluation the exception is instead swallowed by the
inner fallback, which substitutes zero predictions and completes the
evaluation with status `"Evaluation complete"`.  (Both embedded functions are
total: no exception propagates to the caller in either component.) -/
theorem C3_amended_exception_handling :
    (∀ env p i t e m, (load_model env p i "prophet").1 = some m →
      m.prophetPredict [t + 1] = .error e →
      predict_next_day_demand env p i "prophet" t =
        (⟨p, i, 0, 0, predictionFailedStatus e⟩, [modelPath "prophet" p i])) ∧
    (∀ env p i t e m, (load_model env p i "arima").1 = some m →
      m.arimaPredict 1 = .error e →
      predict_next_day_demand env p i "arima" t =
        (⟨p, i, 0, 0, predictionFailedStatus e⟩, [modelPath "arima" p i])) ∧
    (∀ env p i rows e m, p ≠ "" → i ≠ "" →
      (load_model env p i "prophet").1 = some m →
      rows ≠ [] →
      sortByDs (rows.filter fun r => r.pincode = p ∧ r.item = i) ≠ [] →
      m.prophetPredict
          ((sortByDs (rows.filter fun r => r.pincode = p ∧ r.item = i)).map (·.ds)) =
        .error e →
      evaluate_model_performance env p i "prophet" (some rows) =
        .failure ("Prediction for evaluation failed: " ++ e)) ∧
    (∀ env p i rows e m, p ≠ "" → i ≠ "" →
      (load_model env p i "arima").1 = some m →
      rows ≠ [] →
      sortByDs (rows.filter fun r => r.pincode = p ∧ r.item = i) ≠ [] →
      m.arimaPredict
          ((sortByDs (rows.filter fun r => r.pincode = p ∧ r.item = i)).map (·.y)).length =
        .error e →
      evalStatus (evaluate_model_performance env p i "arima" (some rows)) =
        "Evaluation complete" ∧
      isMetrics (evaluate_model_performance env p i "arima" (some rows)) = true) := by
  refine ⟨?_, ?_, ?_, ?_⟩
  · intro env p i t e m hm hpred
    unfold predict_next_day_demand
    rw [hm]
    simp only
    rw [if_pos (Or.inl trivial), if_pos trivial, hpred]
  · intro env p i t e m hm hpred
    unfold predict_next_day_demand
    rw [hm]
    simp only
    rw [if_pos (Or.inr trivial), if_neg (by decide), hpred]
  · intro env p i rows e m hp hi hm hrows hser hpred
    simp only [evaluate_model_performance]
    rw [if_neg (by rintro (h | h); exacts [hp h, hi h])]
    rw [if_neg (by simp)]
    rw [hm]
    simp only
    rw [if_neg hrows, if_neg hser, if_pos trivial, hpred]
  · intro env p i rows e m hp hi hm hrows hser hpred
    have hlen : ¬ ((rows.filter fun r => r.pincode = p ∧ r.item = i) |> sortByDs
        |>.map (·.y)).length ⊓
        (((rows.filter fun r => r.pincode = p ∧ r.item = i) |> sortByDs
          |>.map (·.y)).map fun _ => (0 : ℚ)).length = 0 := by
      simp only [List.length_map, min_self, List.length_eq_zero]
      exact hser
    constructor <;>
    · simp only [evaluate_model_performance]
      rw [if_neg (by rintro (h | h); exacts [hp h, hi h])]
      rw [if_neg (by simp)]
      rw [hm]
      simp only
      rw [if_neg hrows, if_neg hser, if_neg (by decide), hpred]
      simp only
      rw [if_neg hlen]
      rfl

/-- Witness for C3 amended at concrete inputs: a raising model yields the
zeroed `Prediction failed` result in the Prediction Service for both kinds;
inside evaluation a raising prophet model yields the prediction-failure
status, while a raising arima model still completes with metrics. -/
theorem C3_witness :
    predict_next_day_demand (envWith (modelPath "prophet" "110037" "Milk") failingModel)
        "110037" "Milk" "prophet" 20000 =
      (⟨"110037", "Milk", 0, 0, predictionFailedStatus "ValueError: boom"⟩,
       [modelPath "prophet" "110037" "Milk"]) ∧
    predict_next_day_demand (envWith (modelPath "arima" "110037" "Milk") failingModel)
        "110037" "Milk" "arima" 20000 =
      (⟨"110037", "Milk", 0, 0, predictionFailedStatus "ValueError: boom"⟩,
       [modelPath "arima" "110037" "Milk"]) ∧
    evaluate_model_performance (envWith (modelPath "prophet" "110037" "Milk") failingModel)
        "110037" "Milk" "prophet"
        (some [⟨1, 3, "110037", "Milk"⟩, ⟨2, 4, "110037", "Milk"⟩]) =
      .failure ("Prediction for evaluation failed: " ++ "ValueError: boom") ∧
    evalStatus (evaluate_model_performance
        (envWith (modelPath "arima" "110037" "Milk") failingModel) "110037" "Milk" "arima"
        (some [⟨1, 3, "110037", "Milk"⟩, ⟨2, 4, "110037", "Milk"⟩])) =
      "Evaluation complete" := by
  refine ⟨?_, ?_, ?_, ?_⟩
  · exact C3_amended_exception_handling.1 _ "110037" "Milk" 20000 "ValueError: boom"
      failingModel (by norm_num [load_model, envWith]) rfl
  · exact C3_amended_exception_handling.2.1 _ "110037" "Milk" 20000 "ValueError: boom"
      failingModel (by norm_num [load_model, envWith]) rfl
  · exact C3_amended_exception_handling.2.2.1 _ "110037" "Milk" _ "ValueError: boom"
      failingModel (by decide) (by decide) (by norm_num [load_model, envWith]) (by decide)
      (by decide) rfl
  · exact (C3_amended_exception_handling.2.2.2 _ "110037" "Milk" _ "ValueError: boom"
      failingModel (by decide) (by decide) (by norm_num [load_model, envWith]) (by decide)
      (by decide) rfl).1

/-! ## C7 -/

/-- Elements of the (truncated) actual-value series all vanish when every
matching row has `y = 0`. -/
lemma actuals_take_all_zero (rows : List PRow) (p i : String) (n : ℕ)
    (hz : ∀ r ∈ rows, r.pincode = p → r.item = i → r.y = 0) :
    ∀ x ∈ (((sortByDs (rows.filter fun r => r.pincode = p ∧ r.item = i)).map (·.y)).take n),
      x = 0 := by
  intro x hx
  have hx' := List.take_subset n _ hx
  obtain ⟨r, hr, rfl⟩ := List.mem_map.mp hx'
  have hr2 : r ∈ rows.filter fun r => r.pincode = p ∧ r.item = i := by
    have hperm := List.perm_insertionSort (fun a b => a.ds ≤ b.ds)
      (rows.filter fun r => r.pincode = p ∧ r.item = i)
    exact hperm.mem_iff.mp hr
  have := List.mem_filter.mp hr2
  have hkey := of_decide_eq_true this.2
  exact hz r this.1 hkey.1 hkey.2

/-- C7: for every evaluation window in which every actual value (the `y` of
every row matching the requested key) is zero, a metrics-carrying result of
the Evaluation Engine reports MAPE as infinite — not the epsilon-inflated
number — while MAE and the (squared) RMSE are the ordinary rationals of the
`metrics` constructor, and the status is `"Evaluation complete"`. -/
theorem C7_all_zero_actuals_mape_infinite (env : FsEnv) (p i mt : String)
    (rows : List PRow) (mae mse : ℚ) (mape : MapeVal) (st : String)
    (hz : ∀ r ∈ rows, r.pincode = p → r.item = i → r.y = 0)
    (h : evaluate_model_performance env p i mt (some rows) = .metrics mae mse mape st) :
    mape = .infin ∧ st = "Evaluation complete" := by
  simp only [evaluate_model_performance] at h
  split at h
  · simp at h
  · split at h
    · simp at h
    · split at h
      · simp at h
      · split at h
        · simp at h
        · split at h
          · simp at h
          · split at h
            · simp at h
            · split at h
              · simp at h
              · rw [if_pos ?_] at h
                · obtain ⟨-, -, hmape, hst⟩ := EvalResult.metrics.inj h
                  exact ⟨hmape.symm, hst.symm⟩
                · exact List.all_eq_true.mpr fun x hx =>
                    decide_eq_true (actuals_take_all_zero rows p i _ hz x hx)

/-- Witness for C7 at a concrete all-zero window: actuals `[0, 0]`, prophet
predictions `[42, 42]`; MAE and mean-squared error are numeric (42 and 1764)
while MAPE is infinite. -/
theorem C7_witness :
    (∀ r ∈ ([⟨1, 0, "110037", "Milk"⟩, ⟨2, 0, "110037", "Milk"⟩] : List PRow),
      r.pincode = "110037" → r.item = "Milk" → r.y = 0) ∧
    evaluate_model_performance (envWith (modelPath "prophet" "110037" "Milk") sampleModel)
        "110037" "Milk" "prophet"
        (some [⟨1, 0, "110037", "Milk"⟩, ⟨2, 0, "110037", "Milk"⟩]) =
      .metrics 42 1764 .infin "Evaluation complete" ∧
    MapeVal.infin = MapeVal.infin ∧ ("Evaluation complete" : String) = "Evaluation complete" := by
  have hz : ∀ r ∈ ([⟨1, 0, "110037", "Milk"⟩, ⟨2, 0, "110037", "Milk"⟩] : List PRow),
      r.pincode = "110037" → r.item = "Milk" → r.y = 0 := by decide
  have heval : evaluate_model_performance
      (envWith (modelPath "prophet" "110037" "Milk") sampleModel) "110037" "Milk" "prophet"
      (some [⟨1, 0, "110037", "Milk"⟩, ⟨2, 0, "110037", "Milk"⟩]) =
      .metrics 42 1764 .infin "Evaluation complete" := by
    norm_num [evaluate_model_performance, load_model, envWith, sampleModel, modelPath,
      sortByDs, List.insertionSort, List.orderedInsert]
    rw [if_neg (by decide), if_neg (List.cons_ne_nil _ _), if_neg (List.cons_ne_nil _ _)]
    norm_num [List.replicate, List.zipWith, zero_sub, abs_neg, abs_of_nonneg]
  exact ⟨hz, heval,
    C7_all_zero_actuals_mape_infinite _ "110037" "Milk" "prophet" _ 42 1764 .infin
      "Evaluation complete" hz heval⟩

/-! ## C6 -/

lemma dropDuplicatesAux_mem (l : List (String × String)) :
    ∀ (seen : List (String × String)) (x : String × String),
      x ∈ dropDuplicatesAux seen l ↔ x ∈ l ∧ x ∉ seen := by
  induction l with
  | nil => intro seen x; simp [dropDuplicatesAux]
  | cons c cs ih =>
      intro seen x
      by_cases hc : c ∈ seen
      · rw [dropDuplicatesAux, if_pos hc, ih]
        constructor
        · rintro ⟨h1, h2⟩
          exact ⟨List.mem_cons_of_mem c h1, h2⟩
        · rintro ⟨h1, h2⟩
          rcases List.mem_cons.mp h1 with rfl | h1
          · exact absurd hc h2
          · exact ⟨h1, h2⟩
      · rw [dropDuplicatesAux, if_neg hc]
        constructor
        · intro h
          rcases List.mem_cons.mp h with rfl | h
          · exact ⟨List.mem_cons_self x cs, hc⟩
          · have := (ih (c :: seen) x).mp h
            refine ⟨List.mem_cons_of_mem c this.1, fun hx => this.2 (List.mem_cons_of_mem c hx)⟩
        · rintro ⟨h1, h2⟩
          rcases List.mem_cons.mp h1 with rfl | h1
          · exact List.mem_cons_self x _
          · by_cases hxc : x = c
            · subst hxc; exact List.mem_cons_self x _
            · refine List.mem_cons_of_mem c ((ih (c :: seen) x).mpr ⟨h1, fun hx => ?_⟩)
              rcases List.mem_cons.mp hx with h | h
              · exact hxc h
              · exact h2 h

lemma dropDuplicatesAux_nodup (l : List (String × String)) :
    ∀ seen : List (String × String), (dropDuplicatesAux seen l).Nodup := by
  induction l with
  | nil => intro seen; simp [dropDuplicatesAux]
  | cons c cs ih =>
      intro seen
      by_cases hc : c ∈ seen
      · rw [dropDuplicatesAux, if_pos hc]; exact ih seen
      · rw [dropDuplicatesAux, if_neg hc]
        refine List.Nodup.cons (fun hmem => ?_) (ih (c :: seen))
        exact ((dropDuplicatesAux_mem cs (c :: seen) c).mp hmem).2 (List.mem_cons_self c seen)

lemma uniqueCombinations_mem (df : List RawRecord) (c : String × String) :
    c ∈ uniqueCombinations df ↔ c ∈ df.map fun r => (r.pincode, r.item) := by
  rw [uniqueCombinations, dropDuplicatesAux_mem]
  simp

lemma uniqueCombinations_nodup (df : List RawRecord) : (uniqueCombinations df).Nodup :=
  dropDuplicatesAux_nodup _ []

/-- Flattening a one-hot list of lists (nonempty exactly at one key of a
duplicate-free index list) gives that one entry. -/
lemma flatten_one_hot {α : Type} (l : List (String × String)) (x : String × String)
    (g : List α) (hnd : l.Nodup) (hx : x ∈ l) :
    (l.map fun c => if c = x then g else []).flatten = g := by
  induction l with
  | nil => cases hx
  | cons c cs ih =>
      rw [List.map_cons, List.flatten_cons]
      rcases List.mem_cons.mp hx with rfl | hx'
      · rw [if_pos rfl]
        have hrest : (cs.map fun c => if c = x then g else []).flatten = [] := by
          rw [List.flatten_eq_nil_iff]
          intro t ht
          obtain ⟨c', hc', rfl⟩ := List.mem_map.mp ht
          rw [if_neg]
          rintro rfl
          exact (List.nodup_cons.mp hnd).1 hc'
        rw [hrest, List.append_nil]
      · have hcx : c ≠ x := by
          rintro rfl
          exact (List.nodup_cons.mp hnd).1 hx'
        rw [if_neg hcx, List.nil_append]
        exact ih (List.nodup_cons.mp hnd).2 hx'

/-- For a key present in the raw data, filtering the preprocessed output down
to that key yields exactly that key's daily series. -/
lemma preprocess_filter_eq (df : List RawRecord) (pc it : String) (hdf : df ≠ [])
    (hmem : (pc, it) ∈ df.map fun r => (r.pincode, r.item)) :
    (preprocess_data df).filter (fun r => r.pincode = pc ∧ r.item = it) =
      buildDailySeries (groupFor df pc it) pc it := by
  unfold preprocess_data
  rw [if_neg hdf, List.filter_flatten, List.map_map]
  have hstep : (uniqueCombinations df).map
      ((List.filter fun r => r.pincode = pc ∧ r.item = it) ∘ fun c =>
        if groupFor df c.1 c.2 = [] then [] else buildDailySeries (groupFor df c.1 c.2) c.1 c.2) =
      (uniqueCombinations df).map fun c =>
        if c = (pc, it) then buildDailySeries (groupFor df pc it) pc it else [] := by
    apply List.map_congr_left
    intro c hc
    have hcmem := (uniqueCombinations_mem df c).mp hc
    obtain ⟨r, hr, hrc⟩ := List.mem_map.mp hcmem
    have hgrp : groupFor df c.1 c.2 ≠ [] := by
      intro hnil
      have : r ∈ groupFor df c.1 c.2 := by
        rw [groupFor, List.mem_filter]
        refine ⟨hr, ?_⟩
        rw [← hrc]
        simp
      rw [hnil] at this
      cases this
    simp only [Function.comp_apply, if_neg hgrp]
    by_cases hceq : c = (pc, it)
    · subst hceq
      rw [if_pos rfl, List.filter_eq_self]
      intro a ha
      obtain ⟨d, _, rfl⟩ := List.mem_map.mp ha
      simp
    · rw [if_neg hceq, List.filter_eq_nil_iff]
      intro a ha
      obtain ⟨d, _, rfl⟩ := List.mem_map.mp ha
      simp only [decide_eq_true_eq, not_and]
      intro h1 h2
      exact hceq (by rw [← h1, ← h2])
  rw [hstep,
    flatten_one_hot _ _ _ (uniqueCombinations_nodup df) ((uniqueCombinations_mem df _).mpr hmem)]

/-- C6: for every non-empty raw record set and every key present in it, the
preprocessed rows for that key form the daily-contiguous calendar index from
the key's minimum to maximum observed date (`seqDays`, the list
`lo, lo+1, ..., hi`), each day's value is the sum of that day's raw
quantities for the key (additive over same-day records), and a day with no
raw record for the key gets value 0. -/
theorem C6_preprocess_gapless_summed_zero_filled (df : List RawRecord) (pc it : String)
    (hdf : df ≠ []) (hmem : (pc, it) ∈ df.map fun r => (r.pincode, r.item)) :
    ((preprocess_data df).filter fun r => r.pincode = pc ∧ r.item = it).map (·.ds) =
      seqDays (minDate (groupFor df pc it)) (maxDate (groupFor df pc it)) ∧
    (∀ r ∈ (preprocess_data df).filter fun r => r.pincode = pc ∧ r.item = it,
      r.y = daySum (groupFor df pc it) r.ds) ∧
    (∀ d : ℤ, d ∉ (groupFor df pc it).map (·.date) → daySum (groupFor df pc it) d = 0) := by
  rw [preprocess_filter_eq df pc it hdf hmem]
  refine ⟨?_, ?_, ?_⟩
  · rw [buildDailySeries, List.map_map]
    exact List.map_id _
  · intro r hr
    obtain ⟨d, _, rfl⟩ := List.mem_map.mp hr
    rfl
  · intro d hd
    rw [daySum]
    have : (groupFor df pc it).filter (fun r => r.date = d) = [] := by
      rw [List.filter_eq_nil_iff]
      intro a ha
      simp only [decide_eq_true_eq]
      intro heq
      exact hd (List.mem_map.mpr ⟨a, ha, heq⟩)
    rw [this]
    rfl

/-- Witness for C6 on `sampleRaw`: the Milk series is the contiguous index
10, 11, 12 with the duplicated day summed (5), the gap day zero-filled, and
the last day kept (4). -/
theorem C6_witness :
    (sampleRaw ≠ [] ∧
      ("110037", "Milk") ∈ sampleRaw.map fun r => (r.pincode, r.item)) ∧
    ((preprocess_data sampleRaw).filter fun r =>
        r.pincode = "110037" ∧ r.item = "Milk").map (·.ds) =
      seqDays (minDate (groupFor sampleRaw "110037" "Milk"))
        (maxDate (groupFor sampleRaw "110037" "Milk")) ∧
    (∀ r ∈ (preprocess_data sampleRaw).filter fun r =>
        r.pincode = "110037" ∧ r.item = "Milk",
      r.y = daySum (groupFor sampleRaw "110037" "Milk") r.ds) ∧
    (∀ d : ℤ, d ∉ (groupFor sampleRaw "110037" "Milk").map (·.date) →
      daySum (groupFor sampleRaw "110037" "Milk") d = 0) := by
  refine ⟨⟨by decide, by decide⟩, ?_⟩
  exact C6_preprocess_gapless_summed_zero_filled sampleRaw "110037" "Milk"
    (by decide) (by decide)

/-! ## C9 -/

lemma splitUnderscore_ne_nil (l : List Char) : splitUnderscore l ≠ [] := by
  cases l with
  | nil => simp [splitUnderscore]
  | cons c rest =>
      rw [splitUnderscore]
      split
      · exact List.cons_ne_nil _ _
      · split
        · exact List.cons_ne_nil _ _
        · exact List.cons_ne_nil _ _

lemma splitUnderscore_append_sep (a : List Char) :
    ∀ b : List Char, '_' ∉ a →
      splitUnderscore (a ++ '_' :: b) = a :: splitUnderscore b := by
  induction a with
  | nil =>
      intro b _
      rw [List.nil_append, splitUnderscore, if_pos rfl]
  | cons c a' ih =>
      intro b ha
      have hc : ¬ c = '_' := fun h => ha (h ▸ List.mem_cons_self c a')
      have ha' : '_' ∉ a' := fun h => ha (List.mem_cons_of_mem c h)
      rw [List.cons_append, splitUnderscore, if_neg hc, ih b ha']

lemma joinUnderscore_splitUnderscore (l : List Char) :
    joinUnderscore (splitUnderscore l) = l := by
  induction l with
  | nil => rfl
  | cons c rest ih =>
      rw [splitUnderscore]
      by_cases hc : c = '_'
      · rw [if_pos hc]
        obtain ⟨s, ss, hss⟩ : ∃ s ss, splitUnderscore rest = s :: ss := by
          cases h : splitUnderscore rest with
          | nil => exact absurd h (splitUnderscore_ne_nil rest)
          | cons s ss => exact ⟨s, ss, rfl⟩
        rw [hss]
        rw [hss] at ih
        subst hc
        show '_' :: joinUnderscore (s :: ss) = '_' :: rest
        rw [ih]
      · rw [if_neg hc]
        cases h : splitUnderscore rest with
        | nil => exact absurd h (splitUnderscore_ne_nil rest)
        | cons s ss =>
            rw [h] at ih
            cases ss with
            | nil =>
                show c :: s = c :: rest
                rw [show joinUnderscore [s] = s from rfl] at ih
                rw [ih]
            | cons s2 ss2 =>
                show (c :: s) ++ '_' :: joinUnderscore (s2 :: ss2) = c :: rest
                rw [List.cons_append]
                rw [show joinUnderscore (s :: s2 :: ss2) =
                  s ++ '_' :: joinUnderscore (s2 :: ss2) from rfl] at ih
                rw [ih]

lemma stripJoblibF_nil (fuel : ℕ) : stripJoblibF fuel [] = [] := by
  cases fuel <;> rfl

lemma stripJoblibF_congr :
    ∀ (f1 : ℕ) (l : List Char) (f2 : ℕ), l.length ≤ f1 → l.length ≤ f2 →
      stripJoblibF f1 l = stripJoblibF f2 l := by
  intro f1
  induction f1 with
  | zero =>
      intro l f2 h1 _
      rw [List.length_eq_zero.mp (Nat.le_zero.mp h1)]
      exact (stripJoblibF_nil f2).symm
  | succ f1' ih =>
      intro l f2 h1 h2
      cases l with
      | nil => rw [stripJoblibF_nil, stripJoblibF_nil]
      | cons c rest =>
          cases f2 with
          | zero => exact absurd h2 (by simp)
          | succ f2' =>
              rw [stripJoblibF, stripJoblibF]
              simp only [List.length_cons, Nat.succ_le_succ_iff] at h1 h2
              split
              · exact ih (rest.drop 6) f2'
                  (le_trans (by simp : (rest.drop 6).length ≤ rest.length) h1)
                  (le_trans (by simp : (rest.drop 6).length ≤ rest.length) h2)
              · rw [ih rest f2' h1 h2]

/-- When the pattern has no occurrence strictly inside `u ++ '.joblib'` before
the final position, the replace scan removes exactly the appended extension. -/
lemma stripJoblibF_append_pattern :
    ∀ (u : List Char) (fuel : ℕ), (u ++ jlbC).length ≤ fuel →
      (∀ k, k < u.length → ¬ jlbC <+: (u ++ jlbC).drop k) →
      stripJoblibF fuel (u ++ jlbC) = u := by
  intro u
  induction u with
  | nil =>
      intro fuel hfuel _
      cases fuel with
      | zero => exact absurd hfuel (by simp [jlbC])
      | succ f =>
          rw [List.nil_append]
          rw [show (jlbC : List Char) = '.' :: ['j','o','b','l','i','b'] from rfl]
          rw [stripJoblibF]
          rw [if_pos (by decide)]
          exact stripJoblibF_nil f
  | cons c u' ih =>
      intro fuel hfuel hno
      cases fuel with
      | zero =>
          exact absurd hfuel (by simp)
      | succ f =>
          rw [List.cons_append, stripJoblibF]
          rw [if_neg ?_]
          · have : stripJoblibF f (u' ++ jlbC) = u' := by
              apply ih f
              · have := hfuel
                simp only [List.cons_append, List.length_cons] at this
                omega
              · intro k hk
                have := hno (k + 1) (by simpa using Nat.succ_lt_succ hk)
                rw [List.cons_append] at this
                simpa using this
            rw [this]
          · have := hno 0 (by simp)
            simpa using this

/-- An infix avoiding the separator character lies entirely on one side of it. -/
lemma infix_of_append_sep {pat a b : List Char} {sep : Char} (hsep : sep ∉ pat)
    (h : pat <:+: (a ++ sep :: b)) : pat <:+: a ∨ pat <:+: b := by
  obtain ⟨s, t, hst⟩ := h
  rw [show s ++ pat ++ t = s ++ (pat ++ t) from by rw [List.append_assoc]] at hst
  rcases List.append_eq_append_iff.mp hst with ⟨e, hae, hpe⟩ | ⟨c', hsc, hbc⟩
  · rcases List.append_eq_append_iff.mp hpe with ⟨g, heg, htg⟩ | ⟨g, hpg, hsg⟩
    · left
      exact ⟨s, g, by rw [hae, heg, List.append_assoc]⟩
    · cases g with
      | nil =>
          left
          rw [List.append_nil] at hpg
          exact ⟨s, [], by rw [hae, hpg, List.append_nil]⟩
      | cons g0 g' =>
          have hg0 : sep = g0 := by
            have := congrArg (List.headD · ' ') hsg
            simpa using this
          subst hg0
          exact absurd (hpg ▸ List.mem_append_right _ (List.mem_cons_self sep g')) hsep
  · cases c' with
    | nil =>
        rw [List.nil_append] at hbc
        cases pat with
        | nil => left; exact List.nil_infix
        | cons p0 p' =>
            have hp0 : sep = p0 := by
              have := congrArg (List.headD · ' ') hbc
              simpa using this
            subst hp0
            exact absurd (List.mem_cons_self sep p') hsep
    | cons c0 c'' =>
        have hc0 : sep = c0 := by
          have := congrArg (List.headD · ' ') hbc
          simpa using this
        subst hc0
        right
        have hb : b = c'' ++ pat ++ t := by
          have := congrArg List.tail hbc
          simpa [List.append_assoc] using this
        exact ⟨c'', t, hb.symm⟩

/-- The extension pattern `'.joblib'` has no nonempty proper border: a nontrivial drop never equals
the matching take. -/
lemma jlbC_no_border :
    ∀ t, 1 ≤ t → t ≤ 6 → jlbC.drop t ≠ jlbC.take (jlbC.length - t) := by
  decide

/-- The pattern `'.joblib'` does not occur before the final position in a
well-formed basename whose model-type and pincode components avoid `'_'` and
whose components do not contain the extension as a substring. -/
lemma basename_no_early_occurrence (mt pc it : List Char)
    (hmtj : ¬ jlbC <:+: mt) (hpcj : ¬ jlbC <:+: pc) (hitj : ¬ jlbC <:+: it) :
    ∀ k,
      k < (mt ++ '_' :: 'm' :: 'o' :: 'd' :: 'e' :: 'l' :: '_' :: (pc ++ '_' :: it)).length →
      ¬ jlbC <+:
        ((mt ++ '_' :: 'm' :: 'o' :: 'd' :: 'e' :: 'l' :: '_' :: (pc ++ '_' :: it)) ++
          jlbC).drop k := by
  intro k hk h
  set u := mt ++ '_' :: 'm' :: 'o' :: 'd' :: 'e' :: 'l' :: '_' :: (pc ++ '_' :: it) with hu
  have hdrop : (u ++ jlbC).drop k = u.drop k ++ jlbC := by
    rw [List.drop_append_eq_append_drop, Nat.sub_eq_zero_of_le (le_of_lt hk), List.drop_zero]
  rw [hdrop] at h
  by_cases hcase : k + 7 ≤ u.length
  · have hlen : jlbC.length ≤ (u.drop k).length := by
      simp only [List.length_drop]
      show (7 : ℕ) ≤ u.length - k
      omega
    have hpref : jlbC <+: u.drop k := by
      rw [List.prefix_iff_eq_take] at h
      rw [List.take_append_eq_append_take, Nat.sub_eq_zero_of_le hlen, List.take_zero,
        List.append_nil] at h
      exact List.prefix_iff_eq_take.mpr h
    obtain ⟨r, hr⟩ := hpref
    have hinf : jlbC <:+: u :=
      ⟨u.take k, r, by rw [List.append_assoc, hr, List.take_append_drop]⟩
    have hsep : '_' ∉ jlbC := by decide
    rw [hu] at hinf
    rcases infix_of_append_sep hsep hinf with h1 | h1
    · exact hmtj h1
    · rw [show ('m' :: 'o' :: 'd' :: 'e' :: 'l' :: '_' :: (pc ++ '_' :: it)) =
        ['m', 'o', 'd', 'e', 'l'] ++ '_' :: (pc ++ '_' :: it) from rfl] at h1
      rcases infix_of_append_sep hsep h1 with h2 | h2
      · exact absurd h2 (by decide)
      · rcases infix_of_append_sep hsep h2 with h3 | h3
        · exact hpcj h3
        · exact hitj h3
  · push_neg at hcase
    have hxlen : (u.drop k).length = u.length - k := by simp
    have hx1 : 1 ≤ (u.drop k).length := by omega
    have hx6 : (u.drop k).length ≤ 6 := by omega
    obtain ⟨t, ht⟩ := h
    have h7 : (7 : ℕ) = jlbC.length := rfl
    have htake := congrArg (List.take 7) ht
    rw [h7, List.take_left, List.take_append_eq_append_take,
      List.take_of_length_le (le_trans hx6 (by decide))] at htake
    have hdrop2 := congrArg (List.drop (u.drop k).length) htake
    rw [List.drop_left] at hdrop2
    exact jlbC_no_border (u.drop k).length hx1 hx6 hdrop2

/-- C9 counterexample: the round-trip fails for a location key containing the
separator character: `("prophet", "11_0037", "Milk")` is saved as
`prophet_model_11_0037_Milk.joblib` and parsed back as
`("prophet", "11", "0037_Milk")`, not the original triple. -/
theorem C9_counterexample :
    parseModelFilename (modelBasename "prophet".toList "11_0037".toList "Milk".toList) ≠
      some ("prophet".toList, "11_0037".toList, "Milk".toList) ∧
    parseModelFilename (modelBasename "prophet".toList "11_0037".toList "Milk".toList) =
      some ("prophet".toList, "11".toList, "0037_Milk".toList) := by
  constructor
  · decide
  · decide

/-- C9 amended: the save/list round-trip of the Registry naming scheme holds
for every triple whose model-kind and location key do not contain the `'_'`
separator and whose components do not contain `'.joblib'` as a substring; in
particular item keys may freely contain the separator (everything after the
third `'_'`-separated field — i.e. after the second separator of the
conceptual `kind_pincode_item` key — is rejoined into the item key). -/
theorem C9_amended_roundtrip (mt pc it : List Char)
    (hmt : '_' ∉ mt) (hpc : '_' ∉ pc)
    (hmtj : ¬ jlbC <:+: mt) (hpcj : ¬ jlbC <:+: pc) (hitj : ¬ jlbC <:+: it) :
    parseModelFilename (modelBasename mt pc it) = some (mt, pc, it) := by
  have hb : modelBasename mt pc it =
      (mt ++ '_' :: 'm' :: 'o' :: 'd' :: 'e' :: 'l' :: '_' :: (pc ++ '_' :: it)) ++ jlbC := by
    rw [modelBasename]
    simp [List.append_assoc]
  have hstrip : stripJoblib (modelBasename mt pc it) =
      mt ++ '_' :: 'm' :: 'o' :: 'd' :: 'e' :: 'l' :: '_' :: (pc ++ '_' :: it) := by
    rw [stripJoblib, hb]
    exact stripJoblibF_append_pattern _ _ le_rfl
      (basename_no_early_occurrence mt pc it hmtj hpcj hitj)
  have hsplit :
      splitUnderscore (mt ++ '_' :: 'm' :: 'o' :: 'd' :: 'e' :: 'l' :: '_' :: (pc ++ '_' :: it)) =
        mt :: ['m', 'o', 'd', 'e', 'l'] :: pc :: splitUnderscore it := by
    rw [splitUnderscore_append_sep mt _ hmt]
    rw [show ('m' :: 'o' :: 'd' :: 'e' :: 'l' :: '_' :: (pc ++ '_' :: it)) =
      ['m', 'o', 'd', 'e', 'l'] ++ '_' :: (pc ++ '_' :: it) from rfl]
    rw [splitUnderscore_append_sep _ _ (by decide)]
    rw [splitUnderscore_append_sep pc _ hpc]
  rw [parseModelFilename, hstrip, hsplit]
  rw [if_pos ?_]
  · have hjoin := joinUnderscore_splitUnderscore it
    obtain ⟨s, ss, hss⟩ : ∃ s ss, splitUnderscore it = s :: ss := by
      cases h : splitUnderscore it with
      | nil => exact absurd h (splitUnderscore_ne_nil it)
      | cons s ss => exact ⟨s, ss, rfl⟩
    rw [hss]
    rw [hss] at hjoin
    show some (mt, pc, joinUnderscore (s :: ss)) = some (mt, pc, it)
    rw [hjoin]
  · have hpos := List.length_pos.mpr (splitUnderscore_ne_nil it)
    simp only [List.length_cons]
    omega

/-- Witness for C9 amended at the triple `("prophet", "110037", "Fresh_Milk")`
whose item key contains the separator: the round-trip recovers it intact. -/
theorem C9_witness :
    ('_' ∉ "prophet".toList ∧ '_' ∉ "110037".toList ∧
      ¬ jlbC <:+: "prophet".toList ∧ ¬ jlbC <:+: "110037".toList ∧
      ¬ jlbC <:+: "Fresh_Milk".toList) ∧
    parseModelFilename (modelBasename "prophet".toList "110037".toList "Fresh_Milk".toList) =
      some ("prophet".toList, "110037".toList, "Fresh_Milk".toList) :=
  ⟨⟨by decide, by decide, by decide, by decide, by decide⟩,
   C9_amended_roundtrip "prophet".toList "110037".toList "Fresh_Milk".toList
     (by decide) (by decide) (by decide) (by decide) (by decide)⟩
